import Mathlib

/-!
Verification of the camera-motion simulator (`camera_motion_simulator.py`).

The per-frame bodies of `CameraMotionSimulator.simulate_pan`, `simulate_tilt`,
`simulate_zoom`, `simulate_dolly`, `simulate_tracking` and `simulate_static`
are embedded as pure Lean functions over a `Frame` model.  Python floats are
modelled as exact rationals (`ℚ`); Python `int()` truncation, `%` and `//`
are modelled by `int_trunc`, `Int.emod` and `Int.fdiv` respectively, and
numpy basic slicing (negative indices counted from the end, clamping, and
shape-checked slice assignment) is modelled by `np_norm`, `np_get_slice2d`
and `np_set_slice2d`.  Division by zero, which raises `ZeroDivisionError` in
Python, and `cv2.resize` on an empty or non-positive-size buffer, which
raises, are modelled by `Option`-valued results (`none` = runtime error).
`cv2.resize`'s pixel interpolation is abstracted as a `resize` parameter;
only the fact that its output has the requested dimensions is ever used.
-/

/-- One BGR pixel (three 8-bit channels, modelled as naturals). -/
abbrev Pixel := ℕ × ℕ × ℕ

/-- The black pixel `np.zeros` fills buffers with. -/
def blackPixel : Pixel := (0, 0, 0)

/-- A dense pixel buffer: `h` rows, `w` columns, pixel lookup function.
Lookups outside `[0,h) × [0,w)` are junk and never relied upon. -/
structure Frame where
  h : ℕ
  w : ℕ
  px : ℕ → ℕ → Pixel

/-- `np.zeros((h, w, 3), dtype=np.uint8)`: an all-black frame. -/
def Frame.zeros (h w : ℕ) : Frame := ⟨h, w, fun _ _ => blackPixel⟩

/-- Python `int()` applied to a float: truncation toward zero. -/
def int_trunc (q : ℚ) : ℤ := if 0 ≤ q then q.floor else -((-q).floor)

/-- On non-negative rationals, Python `int()` truncation is the floor. -/
theorem int_trunc_eq_floor {q : ℚ} (h : 0 ≤ q) : int_trunc q = ⌊q⌋ := by
  rw [int_trunc, if_pos h, Rat.floor_def, Rat.floor_def']

/-- Normalisation of one endpoint of a numpy basic slice on an axis of
length `L`: a negative index counts from the end, and the result is clamped
into `[0, L]`. -/
def np_norm (L : ℕ) (i : ℤ) : ℕ :=
  if i < 0 then ((L : ℤ) + i).toNat else min i.toNat L

/-- `a[r0:r1, c0:c1]` for a 2-D numpy array: endpoint normalisation plus
clamping; an empty selection yields a 0-sized axis. -/
def np_get_slice2d (a : Frame) (r0 r1 c0 c1 : ℤ) : Frame :=
  { h := np_norm a.h r1 - np_norm a.h r0
    w := np_norm a.w c1 - np_norm a.w c0
    px := fun i j => a.px (np_norm a.h r0 + i) (np_norm a.w c0 + j) }

/-- `base[r0:r1, c0:c1] = src` for 2-D numpy arrays, in the exact-shape case:
the selection's shape must equal `src`'s shape, otherwise numpy raises
(modelled as `none`). -/
def np_set_slice2d (base : Frame) (r0 r1 c0 c1 : ℤ) (src : Frame) :
    Option Frame :=
  let r0' := np_norm base.h r0
  let r1' := np_norm base.h r1
  let c0' := np_norm base.w c0
  let c1' := np_norm base.w c1
  if src.h = r1' - r0' ∧ src.w = c1' - c0' then
    some { h := base.h, w := base.w
           px := fun i j =>
             if r0' ≤ i ∧ i < r1' ∧ c0' ≤ j ∧ j < c1' then
               src.px (i - r0') (j - c0')
             else base.px i j }
  else none

/-- The horizontally tiled canvas of `simulate_pan`
(`canvas = np.zeros((H, 2W, 3)); canvas[:, :W] = frame; canvas[:, W:] = frame`).
The frame is assumed to have the stream's dimensions `H × W`
(numpy would raise on the region assignments otherwise). -/
def tileH (W H : ℕ) (f : Frame) : Frame :=
  { h := H
    w := 2 * W
    px := fun i j =>
      if j < W then f.px i j
      else if j < 2 * W then f.px i (j - W)
      else blackPixel }

/-- The vertically tiled canvas of `simulate_tilt`
(`canvas = np.zeros((2H, W, 3)); canvas[:H, :] = frame; canvas[H:, :] = frame`). -/
def tileV (W H : ℕ) (f : Frame) : Frame :=
  { h := 2 * H
    w := W
    px := fun i j =>
      if i < H then f.px i j
      else if i < 2 * H then f.px (i - H) j
      else blackPixel }

/-- The pan offset of `simulate_pan`:
`offset = int(frame_num * pixels_per_frame)` for `'right'`,
`int((total_frames - frame_num) * pixels_per_frame)` otherwise, with
`pixels_per_frame = speed / fps`, then `offset % W`. -/
def pan_offset (direction : String) (speed fps : ℚ) (tf fn W : ℕ) : ℤ :=
  let ppf := speed / fps
  (if direction = "right" then int_trunc ((fn : ℚ) * ppf)
   else int_trunc (((tf : ℚ) - (fn : ℚ)) * ppf)) % (W : ℤ)

/-- The tilt offset of `simulate_tilt` (directions `'up'`/other, modulo `H`). -/
def tilt_offset (direction : String) (speed fps : ℚ) (tf fn H : ℕ) : ℤ :=
  let ppf := speed / fps
  (if direction = "up" then int_trunc ((fn : ℚ) * ppf)
   else int_trunc (((tf : ℚ) - (fn : ℚ)) * ppf)) % (H : ℤ)

/-- Per-frame body of `simulate_pan`: tile horizontally, compute the offset,
return `canvas[:, offset : offset + W]`.  `speed / fps` with `fps = 0` and
`offset % 0` raise `ZeroDivisionError` in Python (`none`). -/
def simulate_pan_frame (W H : ℕ) (fps : ℚ) (tf : ℕ) (direction : String)
    (speed : ℚ) (fn : ℕ) (f : Frame) : Option Frame :=
  if fps = 0 then none
  else if W = 0 then none
  else
    let canvas := tileH W H f
    let offset := pan_offset direction speed fps tf fn W
    some (np_get_slice2d canvas 0 (H : ℤ) offset (offset + W))

/-- Per-frame body of `simulate_tilt`: tile vertically, compute the offset,
return `canvas[offset : offset + H, :]`. -/
def simulate_tilt_frame (W H : ℕ) (fps : ℚ) (tf : ℕ) (direction : String)
    (speed : ℚ) (fn : ℕ) (f : Frame) : Option Frame :=
  if fps = 0 then none
  else if H = 0 then none
  else
    let canvas := tileV W H f
    let offset := tilt_offset direction speed fps tf fn H
    some (np_get_slice2d canvas offset (offset + H) 0 (W : ℤ))

/-- The zoom factor of `simulate_zoom`:
`1 + (max_zoom - 1) * progress` for `'in'`,
`max_zoom - (max_zoom - 1) * progress` otherwise. -/
def zoom_factor (zoom_type : String) (max_zoom progress : ℚ) : ℚ :=
  if zoom_type = "in" then 1 + (max_zoom - 1) * progress
  else max_zoom - (max_zoom - 1) * progress

/-- Crop-window sides of `simulate_zoom`:
`new_width = int(W / zoom_factor)`, `new_height = int(H / zoom_factor)`,
with `progress = frame_num / total_frames`. -/
def zoom_crop_dims (zoom_type : String) (max_zoom : ℚ) (W H tf fn : ℕ) :
    ℤ × ℤ :=
  let progress : ℚ := (fn : ℚ) / (tf : ℚ)
  let zf := zoom_factor zoom_type max_zoom progress
  (int_trunc ((W : ℚ) / zf), int_trunc ((H : ℚ) / zf))

/-- The centred crop window of `simulate_zoom`
(`frame[y_start : y_start + new_height, x_start : x_start + new_width]` with
`x_start = (W - new_width) // 2`, `y_start = (H - new_height) // 2`). -/
def zoom_cropped (zoom_type : String) (max_zoom : ℚ) (W H tf fn : ℕ)
    (f : Frame) : Frame :=
  let nw := (zoom_crop_dims zoom_type max_zoom W H tf fn).1
  let nh := (zoom_crop_dims zoom_type max_zoom W H tf fn).2
  let x_start := ((W : ℤ) - nw).fdiv 2
  let y_start := ((H : ℤ) - nh).fdiv 2
  np_get_slice2d f y_start (y_start + nh) x_start (x_start + nw)

/-- Per-frame body of `simulate_zoom`: centred crop of size
`(new_width, new_height)`, then `cv2.resize` back to `(W, H)`.
`frame_num / total_frames` with `total_frames = 0` and float division by a
zero zoom factor raise in Python, and `cv2.resize` raises on an empty crop
(all `none`). -/
def simulate_zoom_frame (resize : Frame → ℕ → ℕ → Frame) (W H tf : ℕ)
    (zoom_type : String) (max_zoom : ℚ) (fn : ℕ) (f : Frame) :
    Option Frame :=
  if tf = 0 then none
  else
    let zf := zoom_factor zoom_type max_zoom ((fn : ℚ) / (tf : ℚ))
    if zf = 0 then none
    else
      let cropped := zoom_cropped zoom_type max_zoom W H tf fn f
      if cropped.h = 0 ∨ cropped.w = 0 then none
      else some (resize cropped W H)

/-- The hard-coded `max_scale = 1.5` of `simulate_dolly`. -/
def dolly_max_scale : ℚ := 3 / 2

/-- Per-frame body of `simulate_dolly`: resize the whole frame by
`scale_factor` (computed from `progress = frame_num / total_frames` and the
fixed `dolly_max_scale`; the `speed` argument is never read), then either
centre-crop (`scale_factor >= 1`) or place the scaled frame into a black
canvas via a numpy slice assignment (`scale_factor < 1`).
`total_frames = 0` and a non-positive resize target raise in Python (`none`);
a shape-mismatched slice assignment raises inside `np_set_slice2d`. -/
def simulate_dolly_frame (resize : Frame → ℕ → ℕ → Frame) (W H tf : ℕ)
    (direction : String) (speed : ℚ) (fn : ℕ) (f : Frame) : Option Frame :=
  if tf = 0 then none
  else
    let progress : ℚ := (fn : ℚ) / (tf : ℚ)
    let scale_factor :=
      if direction = "in" then 1 + (dolly_max_scale - 1) * progress
      else dolly_max_scale - (dolly_max_scale - 1) * progress
    let nw := int_trunc ((W : ℚ) * scale_factor)
    let nh := int_trunc ((H : ℚ) * scale_factor)
    if nw ≤ 0 ∨ nh ≤ 0 then none
    else
      let scaled := resize f nw.toNat nh.toNat
      let x_start := (nw - (W : ℤ)).fdiv 2
      let y_start := (nh - (H : ℤ)).fdiv 2
      if 1 ≤ scale_factor then
        some (np_get_slice2d scaled y_start (y_start + H) x_start (x_start + W))
      else
        np_set_slice2d (Frame.zeros H W) y_start (y_start + nh)
          x_start (x_start + nw) scaled

/-- Per-frame body of `simulate_tracking`: it literally calls
`simulate_pan` with the same direction and speed. -/
def simulate_tracking_frame (W H : ℕ) (fps : ℚ) (tf : ℕ) (direction : String)
    (speed : ℚ) (fn : ℕ) (f : Frame) : Option Frame :=
  simulate_pan_frame W H fps tf direction speed fn f

/-- Per-frame body of `simulate_static`: the frame is written unchanged. -/
def simulate_static_frame (f : Frame) : Frame := f

/-- The six motion kinds of the simulator. -/
inductive MotionKind
  | pan | tilt | zoom | dolly | tracking | static
deriving DecidableEq

/-- Dispatcher over the six per-frame transform bodies; `intensity` is the
kind-dependent parameter (speed for pan/tilt/tracking, `max_zoom` for zoom,
the unused `speed` for dolly). -/
def apply_motion (resize : Frame → ℕ → ℕ → Frame) (kind : MotionKind)
    (direction : String) (intensity : ℚ) (W H : ℕ) (fps : ℚ) (tf fn : ℕ)
    (f : Frame) : Option Frame :=
  match kind with
  | .pan => simulate_pan_frame W H fps tf direction intensity fn f
  | .tilt => simulate_tilt_frame W H fps tf direction intensity fn f
  | .zoom => simulate_zoom_frame resize W H tf direction intensity fn f
  | .dolly => simulate_dolly_frame resize W H tf direction intensity fn f
  | .tracking => simulate_tracking_frame W H fps tf direction intensity fn f
  | .static => some (simulate_static_frame f)

/-- A concrete resampler with `cv2.resize`'s dimension contract
(nearest-neighbour flavour), used to instantiate theorems at witnesses. -/
def resize_nn (f : Frame) (w h : ℕ) : Frame :=
  ⟨h, w, fun i j => f.px (i * f.h / h) (j * f.w / w)⟩

/-- A concrete 4×4 frame used to instantiate theorems at witnesses. -/
def test_frame : Frame := ⟨4, 4, fun i j => (i, j, 0)⟩

/-! ### Helper lemmas -/

/-- Normalising a non-negative in-range slice endpoint is `Int.toNat`. -/
theorem np_norm_eq_toNat {L : ℕ} {i : ℤ} (h0 : 0 ≤ i) (hL : i ≤ (L : ℤ)) :
    np_norm L i = i.toNat := by
  unfold np_norm
  rw [if_neg (by omega)]
  omega

/-- Python truncation of a non-negative value is non-negative. -/
theorem int_trunc_nonneg {q : ℚ} (h : 0 ≤ q) : 0 ≤ int_trunc q := by
  rw [int_trunc_eq_floor h]
  exact Int.floor_nonneg.mpr h

/-- An integer lower bound transfers through Python truncation. -/
theorem le_int_trunc {n : ℤ} {q : ℚ} (hn : (n : ℚ) ≤ q) (h0 : 0 ≤ q) :
    n ≤ int_trunc q := by
  rw [int_trunc_eq_floor h0]
  exact Int.le_floor.mpr hn

/-- An integer upper bound transfers through Python truncation. -/
theorem int_trunc_le {n : ℤ} {q : ℚ} (hq : q ≤ (n : ℚ)) (h0 : 0 ≤ q) :
    int_trunc q ≤ n := by
  rw [int_trunc_eq_floor h0]
  calc ⌊q⌋ ≤ ⌊(n : ℚ)⌋ := Int.floor_le_floor hq
  _ = n := Int.floor_intCast n

/-- Python truncation is monotone on non-negative values. -/
theorem int_trunc_mono {a b : ℚ} (h0 : 0 ≤ a) (h : a ≤ b) :
    int_trunc a ≤ int_trunc b := by
  rw [int_trunc_eq_floor h0, int_trunc_eq_floor (h0.trans h)]
  exact Int.floor_le_floor h

/-! ### C2, C7, C8: identity, noninterference, tracking/pan aliasing -/

/-- C2: the Static transform is the identity: for every input frame (and
hence at every frame index of the loop in `simulate_static`), the output
frame written equals the input frame exactly. -/
theorem C2_static_identity : ∀ f : Frame, simulate_static_frame f = f :=
  fun _ => rfl

/-- C7: `simulate_dolly` derives its scale factor from the fixed constant
`max_scale = 1.5`, and its `speed` argument has no influence on the output:
for any two speed values and otherwise identical inputs, every output frame
is identical. -/
theorem C7_dolly_speed_noninterference :
    dolly_max_scale = 3 / 2 ∧
    ∀ (resize : Frame → ℕ → ℕ → Frame) (W H tf : ℕ) (direction : String)
      (speed₁ speed₂ : ℚ) (fn : ℕ) (f : Frame),
      simulate_dolly_frame resize W H tf direction speed₁ fn f =
        simulate_dolly_frame resize W H tf direction speed₂ fn f :=
  ⟨rfl, fun _ _ _ _ _ _ _ _ _ => rfl⟩

/-- C8: the Tracking transform computes exactly the same output frames as
the Pan transform, for every frame, frame index, direction and speed
(`simulate_tracking` literally delegates to `simulate_pan`). -/
theorem C8_tracking_equals_pan :
    ∀ (W H : ℕ) (fps : ℚ) (tf : ℕ) (direction : String) (speed : ℚ)
      (fn : ℕ) (f : Frame),
      simulate_tracking_frame W H fps tf direction speed fn f =
        simulate_pan_frame W H fps tf direction speed fn f :=
  fun _ _ _ _ _ _ _ _ => rfl

/-! ### The batch catalog of `generate_all_motions` -/

/-- One `simulate_*` invocation as recorded in the `motions` dictionary of
`generate_all_motions` (method plus the arguments the lambda passes). -/
inductive CatalogCall where
  | pan (direction : String) (speed : ℚ)
  | tilt (direction : String) (speed : ℚ)
  | zoom (zoom_type : String) (max_zoom : ℚ)
  | dolly (direction : String) (speed : ℚ)
  | static

/-- The label under which the batch orchestrator records a call, per the
spec's label format: `"{kind}_{direction}"`, or `"{kind}"` for static. -/
def catalog_label : CatalogCall → String
  | .pan d _ => "pan_" ++ d
  | .tilt d _ => "tilt_" ++ d
  | .zoom z _ => "zoom_" ++ z
  | .dolly d _ => "dolly_" ++ d
  | .static => "static"

/-- The `motions` dictionary of `generate_all_motions`: ground-truth label,
output filename, and the `simulate_*` call made for that entry, in the
source's insertion order. -/
def generate_all_motions_catalog : List (String × String × CatalogCall) :=
  [("pan_right", "pan_right.mp4", .pan "right" 50),
   ("pan_left", "pan_left.mp4", .pan "left" 50),
   ("tilt_up", "tilt_up.mp4", .tilt "up" 30),
   ("tilt_down", "tilt_down.mp4", .tilt "down" 30),
   ("zoom_in", "zoom_in.mp4", .zoom "in" (3 / 2)),
   ("zoom_out", "zoom_out.mp4", .zoom "out" (3 / 2)),
   ("dolly_in", "dolly_in.mp4", .dolly "in" 2),
   ("dolly_out", "dolly_out.mp4", .dolly "out" 2),
   ("static", "static.mp4", .static)]

/-- The intensity a catalog call is generated with: the speed passed for
pan/tilt, the `max_zoom` passed for zoom, the fixed `dolly_max_scale` for
dolly (the passed `speed` being ignored, see `simulate_dolly_frame`), and
none for static. -/
def catalog_intensity : CatalogCall → Option ℚ
  | .pan _ s => some s
  | .tilt _ s => some s
  | .zoom _ m => some m
  | .dolly _ _ => some dolly_max_scale
  | .static => none

/-- C10: the batch orchestrator's catalog has exactly 9 entries whose
pairwise-distinct labels are exactly
pan_right, pan_left, tilt_up, tilt_down, zoom_in, zoom_out, dolly_in,
dolly_out, static; each label is the `kind_direction` encoding of its call
(static bearing no direction suffix), and each call carries its catalog
intensity default (pan 50, tilt 30, zoom max 1.5, dolly the fixed
`max_scale = 1.5`, static none). -/
theorem C10_batch_catalog :
    generate_all_motions_catalog.length = 9 ∧
    generate_all_motions_catalog.map (fun e => e.1) =
      ["pan_right", "pan_left", "tilt_up", "tilt_down", "zoom_in",
       "zoom_out", "dolly_in", "dolly_out", "static"] ∧
    (generate_all_motions_catalog.map (fun e => e.1)).Nodup ∧
    (∀ e ∈ generate_all_motions_catalog, e.1 = catalog_label e.2.2) ∧
    generate_all_motions_catalog.map (fun e => catalog_intensity e.2.2) =
      [some 50, some 50, some 30, some 30, some (3 / 2), some (3 / 2),
       some (3 / 2), some (3 / 2), none] := by
  refine ⟨rfl, rfl, by decide, by decide, ?_⟩
  simp [generate_all_motions_catalog, catalog_intensity, dolly_max_scale]

/-! ### C3, C4: offset bounds and the end-to-end pan scenario -/

/-- C3: for every frame index and positive intensity and frame rate, the
Pan crop offset satisfies `0 ≤ offset < W` (Tilt: `0 ≤ offset < H`), so the
crop window `[offset, offset + W)` (resp. `H`) lies inside the doubled
tiled canvas; and at frame index 0 in the positive (`right`/`up`)
direction the offset is exactly 0. -/
theorem C3_offset_bounds (direction : String) (speed fps : ℚ)
    (tf fn W H : ℕ) (hs : 0 < speed) (hfps : 0 < fps) (hW : 0 < W) (hH : 0 < H) :
    (0 ≤ pan_offset direction speed fps tf fn W ∧
     pan_offset direction speed fps tf fn W < W ∧
     pan_offset direction speed fps tf fn W + W ≤ 2 * W) ∧
    (0 ≤ tilt_offset direction speed fps tf fn H ∧
     tilt_offset direction speed fps tf fn H < H ∧
     tilt_offset direction speed fps tf fn H + H ≤ 2 * H) ∧
    pan_offset "right" speed fps tf 0 W = 0 ∧
    tilt_offset "up" speed fps tf 0 H = 0 := by
  have hWz : ((W : ℕ) : ℤ) ≠ 0 := by exact_mod_cast hW.ne'
  have hHz : ((H : ℕ) : ℤ) ≠ 0 := by exact_mod_cast hH.ne'
  have hWp : (0 : ℤ) < (W : ℤ) := by exact_mod_cast hW
  have hHp : (0 : ℤ) < (H : ℤ) := by exact_mod_cast hH
  have h0 : int_trunc 0 = 0 := by
    rw [int_trunc_eq_floor le_rfl]; exact Int.floor_zero
  have hp1 : 0 ≤ pan_offset direction speed fps tf fn W :=
    Int.emod_nonneg _ hWz
  have hp2 : pan_offset direction speed fps tf fn W < W :=
    Int.emod_lt_of_pos _ hWp
  have ht1 : 0 ≤ tilt_offset direction speed fps tf fn H :=
    Int.emod_nonneg _ hHz
  have ht2 : tilt_offset direction speed fps tf fn H < H :=
    Int.emod_lt_of_pos _ hHp
  refine ⟨⟨hp1, hp2, by omega⟩, ⟨ht1, ht2, by omega⟩, ?_, ?_⟩
  · simp [pan_offset, h0]
  · simp [tilt_offset, h0]

/-- C3 witness: the bounds instantiated at direction `left`, speed 7,
frame rate 3, 5 total frames, frame 2, a 4×3 stream. -/
theorem C3_offset_bounds_witness :
    (0 : ℚ) < 7 ∧ (0 : ℚ) < 3 ∧ 0 < 4 ∧ 0 < 3 ∧
    ((0 ≤ pan_offset "left" 7 3 5 2 4 ∧
      pan_offset "left" 7 3 5 2 4 < 4 ∧
      pan_offset "left" 7 3 5 2 4 + 4 ≤ 2 * 4) ∧
     (0 ≤ tilt_offset "left" 7 3 5 2 3 ∧
      tilt_offset "left" 7 3 5 2 3 < 3 ∧
      tilt_offset "left" 7 3 5 2 3 + 3 ≤ 2 * 3) ∧
     pan_offset "right" 7 3 5 0 4 = 0 ∧
     tilt_offset "up" 7 3 5 0 3 = 0) :=
  ⟨by norm_num, by norm_num, by norm_num, by norm_num,
   C3_offset_bounds "left" 7 3 5 2 4 3 (by norm_num) (by norm_num)
     (by norm_num) (by norm_num)⟩

/-- C4: with `frame_rate = 30`, `total_frames = 90`, `width = 1280` and a
positive-direction Pan of intensity 50, the offset at frame index 30 is
`int(30 * (50/30)) mod 1280 = 50`, and the output frame equals columns
`[50, 1330)` of the horizontally tiled canvas built from the source frame. -/
theorem C4_pan_scenario :
    pan_offset "right" 50 30 90 30 1280 = 50 ∧
    ∀ f : Frame, simulate_pan_frame 1280 720 30 90 "right" 50 30 f =
      some (np_get_slice2d (tileH 1280 720 f) 0 720 50 1330) := by
  have hoff : pan_offset "right" 50 30 90 30 1280 = 50 := by
    simp only [pan_offset, if_pos rfl]
    rw [show ((30 : ℕ) : ℚ) * (50 / 30) = 50 by norm_num]
    rw [int_trunc_eq_floor (by norm_num)]
    norm_num
  refine ⟨hoff, fun f => ?_⟩
  simp only [simulate_pan_frame]
  rw [if_neg (by norm_num), if_neg (by norm_num), hoff]
  norm_num

/-! ### C5: zoom crop-window monotonicity -/

/-- A larger zoom factor gives a crop side that is no larger (and sides are
non-negative), via `new_side = int(dimension / zoom_factor)`. -/
theorem zoom_side_bounds (d : ℕ) {zf zf' : ℚ} (h1 : 1 ≤ zf) (hle : zf ≤ zf') :
    0 ≤ int_trunc ((d : ℚ) / zf') ∧
    int_trunc ((d : ℚ) / zf') ≤ int_trunc ((d : ℚ) / zf) := by
  have hzf : (0 : ℚ) < zf := lt_of_lt_of_le one_pos h1
  have hzf' : (0 : ℚ) < zf' := hzf.trans_le hle
  have hd : (0 : ℚ) ≤ (d : ℚ) := Nat.cast_nonneg d
  exact ⟨int_trunc_nonneg (div_nonneg hd hzf'.le),
    int_trunc_mono (div_nonneg hd hzf'.le)
      (div_le_div_of_nonneg_left hd hzf hle)⟩

/-- C5: for Zoom-In with `max_zoom ≥ 1` the crop-window area
`new_width * new_height` is non-increasing in the frame index over
`[0, total_frames)`; for Zoom-Out it is non-decreasing. -/
theorem C5_zoom_area_monotone (max_zoom : ℚ) (W H tf i j : ℕ)
    (hmz : 1 ≤ max_zoom) (htf : 0 < tf) (hij : i ≤ j) (hj : j < tf) :
    ((zoom_crop_dims "in" max_zoom W H tf j).1 *
       (zoom_crop_dims "in" max_zoom W H tf j).2 ≤
     (zoom_crop_dims "in" max_zoom W H tf i).1 *
       (zoom_crop_dims "in" max_zoom W H tf i).2) ∧
    ((zoom_crop_dims "out" max_zoom W H tf i).1 *
       (zoom_crop_dims "out" max_zoom W H tf i).2 ≤
     (zoom_crop_dims "out" max_zoom W H tf j).1 *
       (zoom_crop_dims "out" max_zoom W H tf j).2) := by
  have htfQ : (0 : ℚ) < (tf : ℚ) := by exact_mod_cast htf
  have hpi0 : (0 : ℚ) ≤ (i : ℚ) / tf := div_nonneg (Nat.cast_nonneg i) htfQ.le
  have hpj0 : (0 : ℚ) ≤ (j : ℚ) / tf := div_nonneg (Nat.cast_nonneg j) htfQ.le
  have hpij : (i : ℚ) / tf ≤ (j : ℚ) / tf := by
    have : (i : ℚ) ≤ (j : ℚ) := by exact_mod_cast hij
    exact div_le_div_of_nonneg_right this htfQ.le
  have hpj1 : (j : ℚ) / tf ≤ 1 := by
    rw [div_le_one htfQ]
    exact_mod_cast hj.le
  have hpi1 : (i : ℚ) / tf ≤ 1 := hpij.trans hpj1
  have hm0 : (0 : ℚ) ≤ max_zoom - 1 := sub_nonneg.mpr hmz
  have hin_i : 1 ≤ zoom_factor "in" max_zoom ((i : ℚ) / tf) := by
    simp [zoom_factor]
    nlinarith
  have hin_mono : zoom_factor "in" max_zoom ((i : ℚ) / tf) ≤
      zoom_factor "in" max_zoom ((j : ℚ) / tf) := by
    simp [zoom_factor]
    nlinarith
  have hout_j : 1 ≤ zoom_factor "out" max_zoom ((j : ℚ) / tf) := by
    simp [zoom_factor]
    nlinarith
  have hout_mono : zoom_factor "out" max_zoom ((j : ℚ) / tf) ≤
      zoom_factor "out" max_zoom ((i : ℚ) / tf) := by
    simp [zoom_factor]
    nlinarith
  constructor
  · have hw := zoom_side_bounds W hin_i hin_mono
    have hh := zoom_side_bounds H hin_i hin_mono
    simp only [zoom_crop_dims]
    exact mul_le_mul hw.2 hh.2 hh.1 (le_trans hw.1 hw.2)
  · have hw := zoom_side_bounds W hout_j hout_mono
    have hh := zoom_side_bounds H hout_j hout_mono
    simp only [zoom_crop_dims]
    exact mul_le_mul hw.2 hh.2 hh.1 (le_trans hw.1 hw.2)

/-- C5 witness: the monotonicity instantiated at `max_zoom = 3/2`, a 4×4
stream, 2 total frames, indices 0 ≤ 1 < 2. -/
theorem C5_zoom_area_monotone_witness :
    (1 : ℚ) ≤ 3 / 2 ∧ 0 < 2 ∧ 0 ≤ 1 ∧ 1 < 2 ∧
    (((zoom_crop_dims "in" (3 / 2) 4 4 2 1).1 *
        (zoom_crop_dims "in" (3 / 2) 4 4 2 1).2 ≤
      (zoom_crop_dims "in" (3 / 2) 4 4 2 0).1 *
        (zoom_crop_dims "in" (3 / 2) 4 4 2 0).2) ∧
     ((zoom_crop_dims "out" (3 / 2) 4 4 2 0).1 *
        (zoom_crop_dims "out" (3 / 2) 4 4 2 0).2 ≤
      (zoom_crop_dims "out" (3 / 2) 4 4 2 1).1 *
        (zoom_crop_dims "out" (3 / 2) 4 4 2 1).2)) :=
  ⟨by norm_num, by norm_num, by norm_num, by norm_num,
   C5_zoom_area_monotone (3 / 2) 4 4 2 0 1 (by norm_num) (by norm_num)
     (by norm_num) (by norm_num)⟩

/-! ### C9: absence of configuration validation -/

/-- C9 counterexample: with `total_frames = 0`, `simulate_zoom`'s per-frame
`progress` division fails at the very first frame (a per-frame
`ZeroDivisionError`, equal to `none` in the model), and an unrecognized
direction string is not rejected: `simulate_pan` still produces an output
frame for it.  There is no `ConfigurationError` that fires before
processing. -/
theorem C9_no_configuration_error :
    simulate_zoom_frame resize_nn 4 4 0 "in" (3 / 2) 0 test_frame = none ∧
    (simulate_pan_frame 4 4 30 10 "diag" 5 0 test_frame).isSome = true :=
  ⟨rfl, rfl⟩

/-- C9 amended: the code performs no configuration validation.  An
unrecognized direction is silently processed as the negative (`left`)
direction; with `total_frames = 0` the Zoom transform fails per-frame at
every frame index; with `frame_rate = 0` the Pan transform fails in its
`pixels_per_frame` division. -/
theorem C9_no_validation (resize : Frame → ℕ → ℕ → Frame) (W H tf fn : ℕ)
    (fps speed max_zoom : ℚ) (direction zoom_type : String) (f : Frame)
    (hd : direction ≠ "right") :
    simulate_pan_frame W H fps tf direction speed fn f =
      simulate_pan_frame W H fps tf "left" speed fn f ∧
    simulate_zoom_frame resize W H 0 zoom_type max_zoom fn f = none ∧
    simulate_pan_frame W H 0 tf direction speed fn f = none := by
  refine ⟨?_, rfl, ?_⟩
  · simp [simulate_pan_frame, pan_offset, hd]
  · simp [simulate_pan_frame]

/-- C9 witness: the amended behaviour instantiated at direction `diag`. -/
theorem C9_no_validation_witness :
    ("diag" : String) ≠ "right" ∧
    (simulate_pan_frame 4 4 30 10 "diag" 5 0 test_frame =
       simulate_pan_frame 4 4 30 10 "left" 5 0 test_frame ∧
     simulate_zoom_frame resize_nn 4 4 0 "in" (3 / 2) 0 test_frame = none ∧
     simulate_pan_frame 4 4 0 10 "diag" 5 0 test_frame = none) :=
  ⟨by decide,
   C9_no_validation resize_nn 4 4 10 0 30 5 (3 / 2) "diag" "in" test_frame
     (by decide)⟩

/-! ### C6: the dolly shrink branch -/

/-- C6: when `simulate_dolly`'s scale factor drops below 1 (reachable for
direction `out` once `frame_num` exceeds the reported `total_frames` so
that `progress > 1`, here `total_frames = 1`, `frame_num = 2`, scale 0.5 on
a 4×4 stream), the code computes `x_start = y_start = (new - orig)//2 = -1`
(negative, instead of the claimed centred `(orig - new)/2 = 1`), so the
numpy assignment target `dollied[-1:1, -1:1]` is empty and the assignment
of the 2×2 scaled frame raises — no centred black-padded frame is
produced. -/
theorem C6_dolly_shrink_negative_offset :
    simulate_dolly_frame resize_nn 4 4 1 "out" 2 2 test_frame = none := by
  have hne : ¬(("out" : String) = "in") := by decide
  have h2 : int_trunc (2 : ℚ) = 2 := by
    rw [int_trunc_eq_floor (by norm_num)]
    norm_num
  simp only [simulate_dolly_frame]
  norm_num [dolly_max_scale]
  simp only [if_neg hne, h2]
  norm_num
  rfl

/-! ### C1: dimension invariance of every transform -/

/-- The size of an in-range numpy slice `[a, b)` of an axis of length `L`. -/
theorem np_norm_sub {L : ℕ} {a b : ℤ} (h0 : 0 ≤ a) (hab : a ≤ b)
    (hL : b ≤ (L : ℤ)) : np_norm L b - np_norm L a = (b - a).toNat := by
  rw [np_norm_eq_toNat (h0.trans hab) hL, np_norm_eq_toNat h0 (hab.trans hL)]
  omega

/-- `simulate_pan` always yields a frame of the stream's dimensions. -/
theorem pan_dims (W H : ℕ) (fps : ℚ) (tf : ℕ) (direction : String)
    (speed : ℚ) (fn : ℕ) (f : Frame) (hW : 0 < W) (hfps : fps ≠ 0) :
    ∃ g, simulate_pan_frame W H fps tf direction speed fn f = some g ∧
      g.h = H ∧ g.w = W := by
  have hWz : ((W : ℕ) : ℤ) ≠ 0 := by exact_mod_cast hW.ne'
  have hWp : (0 : ℤ) < (W : ℤ) := by exact_mod_cast hW
  have h1 : 0 ≤ pan_offset direction speed fps tf fn W := Int.emod_nonneg _ hWz
  have h2 : pan_offset direction speed fps tf fn W < W :=
    Int.emod_lt_of_pos _ hWp
  refine ⟨np_get_slice2d (tileH W H f) 0 (H : ℤ)
      (pan_offset direction speed fps tf fn W)
      (pan_offset direction speed fps tf fn W + W), ?_, ?_, ?_⟩
  · simp only [simulate_pan_frame]
    rw [if_neg hfps, if_neg hW.ne']
  · show np_norm (tileH W H f).h (H : ℤ) - np_norm (tileH W H f).h 0 = H
    have : (tileH W H f).h = H := rfl
    rw [this, np_norm_sub (by omega) (by omega) (by omega)]
    omega
  · show np_norm (tileH W H f).w _ - np_norm (tileH W H f).w _ = W
    have hw : (tileH W H f).w = 2 * W := rfl
    rw [hw, np_norm_sub h1 (by omega) (by push_cast; omega)]
    omega

/-- `simulate_tilt` always yields a frame of the stream's dimensions. -/
theorem tilt_dims (W H : ℕ) (fps : ℚ) (tf : ℕ) (direction : String)
    (speed : ℚ) (fn : ℕ) (f : Frame) (hH : 0 < H) (hfps : fps ≠ 0) :
    ∃ g, simulate_tilt_frame W H fps tf direction speed fn f = some g ∧
      g.h = H ∧ g.w = W := by
  have hHz : ((H : ℕ) : ℤ) ≠ 0 := by exact_mod_cast hH.ne'
  have hHp : (0 : ℤ) < (H : ℤ) := by exact_mod_cast hH
  have h1 : 0 ≤ tilt_offset direction speed fps tf fn H := Int.emod_nonneg _ hHz
  have h2 : tilt_offset direction speed fps tf fn H < H :=
    Int.emod_lt_of_pos _ hHp
  refine ⟨np_get_slice2d (tileV W H f)
      (tilt_offset direction speed fps tf fn H)
      (tilt_offset direction speed fps tf fn H + H) 0 (W : ℤ), ?_, ?_, ?_⟩
  · simp only [simulate_tilt_frame]
    rw [if_neg hfps, if_neg hH.ne']
  · show np_norm (tileV W H f).h _ - np_norm (tileV W H f).h _ = H
    have hh : (tileV W H f).h = 2 * H := rfl
    rw [hh, np_norm_sub h1 (by omega) (by push_cast; omega)]
    omega
  · show np_norm (tileV W H f).w (W : ℤ) - np_norm (tileV W H f).w 0 = W
    have : (tileV W H f).w = W := rfl
    rw [this, np_norm_sub (by omega) (by omega) (by omega)]
    omega

/-- For `max_zoom ≥ 1` and progress in `[0, 1]`, the zoom factor lies in
`[1, max_zoom]` for both zoom directions. -/
theorem zoom_factor_bounds (zoom_type : String) (max_zoom : ℚ) {p : ℚ}
    (hmz : 1 ≤ max_zoom) (hp0 : 0 ≤ p) (hp1 : p ≤ 1) :
    1 ≤ zoom_factor zoom_type max_zoom p ∧
    zoom_factor zoom_type max_zoom p ≤ max_zoom := by
  unfold zoom_factor
  split <;> constructor <;> nlinarith

/-- `simulate_zoom` always yields a frame of the stream's dimensions, given
a well-formed profile (`1 ≤ max_zoom ≤ min W H`, so the crop is never
empty) and a frame of the stream's dimensions. -/
theorem zoom_dims (resize : Frame → ℕ → ℕ → Frame)
    (hres : ∀ g a b, (resize g a b).h = b ∧ (resize g a b).w = a)
    (W H tf : ℕ) (zoom_type : String) (max_zoom : ℚ) (fn : ℕ) (f : Frame)
    (hW : 0 < W) (hH : 0 < H) (hmz : 1 ≤ max_zoom)
    (hmzW : max_zoom ≤ (W : ℚ)) (hmzH : max_zoom ≤ (H : ℚ))
    (hfn : fn < tf) (hfh : f.h = H) (hfw : f.w = W) :
    ∃ g, simulate_zoom_frame resize W H tf zoom_type max_zoom fn f = some g ∧
      g.h = H ∧ g.w = W := by
  have htf0 : tf ≠ 0 := by omega
  have htfQ : (0 : ℚ) < (tf : ℚ) := by exact_mod_cast Nat.pos_of_ne_zero htf0
  have hp0 : 0 ≤ (fn : ℚ) / (tf : ℚ) := div_nonneg (Nat.cast_nonneg fn) htfQ.le
  have hp1 : (fn : ℚ) / (tf : ℚ) ≤ 1 := by
    rw [div_le_one htfQ]
    exact_mod_cast hfn.le
  obtain ⟨hzf1, hzfm⟩ :=
    zoom_factor_bounds zoom_type max_zoom hmz hp0 hp1
  have hzfpos : (0 : ℚ) < zoom_factor zoom_type max_zoom ((fn : ℚ) / (tf : ℚ)) :=
    lt_of_lt_of_le one_pos hzf1
  have hnw1 : 1 ≤ (zoom_crop_dims zoom_type max_zoom W H tf fn).1 := by
    show 1 ≤ int_trunc ((W : ℚ) / zoom_factor zoom_type max_zoom ((fn : ℚ) / (tf : ℚ)))
    refine le_int_trunc ?_ (div_nonneg (Nat.cast_nonneg W) hzfpos.le)
    push_cast
    rw [one_le_div hzfpos]
    exact hzfm.trans hmzW
  have hnwW : (zoom_crop_dims zoom_type max_zoom W H tf fn).1 ≤ (W : ℤ) := by
    show int_trunc ((W : ℚ) / zoom_factor zoom_type max_zoom ((fn : ℚ) / (tf : ℚ))) ≤ _
    refine int_trunc_le ?_ (div_nonneg (Nat.cast_nonneg W) hzfpos.le)
    push_cast
    exact div_le_self (Nat.cast_nonneg W) hzf1
  have hnh1 : 1 ≤ (zoom_crop_dims zoom_type max_zoom W H tf fn).2 := by
    show 1 ≤ int_trunc ((H : ℚ) / zoom_factor zoom_type max_zoom ((fn : ℚ) / (tf : ℚ)))
    refine le_int_trunc ?_ (div_nonneg (Nat.cast_nonneg H) hzfpos.le)
    push_cast
    rw [one_le_div hzfpos]
    exact hzfm.trans hmzH
  have hnhH : (zoom_crop_dims zoom_type max_zoom W H tf fn).2 ≤ (H : ℤ) := by
    show int_trunc ((H : ℚ) / zoom_factor zoom_type max_zoom ((fn : ℚ) / (tf : ℚ))) ≤ _
    refine int_trunc_le ?_ (div_nonneg (Nat.cast_nonneg H) hzfpos.le)
    push_cast
    exact div_le_self (Nat.cast_nonneg H) hzf1
  have hxs0 : 0 ≤ ((W : ℤ) - (zoom_crop_dims zoom_type max_zoom W H tf fn).1).fdiv 2 :=
    Int.fdiv_nonneg (by omega) (by omega)
  have hxsle : ((W : ℤ) - (zoom_crop_dims zoom_type max_zoom W H tf fn).1).fdiv 2 ≤
      (W : ℤ) - (zoom_crop_dims zoom_type max_zoom W H tf fn).1 := by
    rw [Int.fdiv_eq_ediv _ (by omega)]
    exact Int.ediv_le_self 2 (by omega)
  have hys0 : 0 ≤ ((H : ℤ) - (zoom_crop_dims zoom_type max_zoom W H tf fn).2).fdiv 2 :=
    Int.fdiv_nonneg (by omega) (by omega)
  have hysle : ((H : ℤ) - (zoom_crop_dims zoom_type max_zoom W H tf fn).2).fdiv 2 ≤
      (H : ℤ) - (zoom_crop_dims zoom_type max_zoom W H tf fn).2 := by
    rw [Int.fdiv_eq_ediv _ (by omega)]
    exact Int.ediv_le_self 2 (by omega)
  have hch : (zoom_cropped zoom_type max_zoom W H tf fn f).h =
      (zoom_crop_dims zoom_type max_zoom W H tf fn).2.toNat := by
    show np_norm f.h _ - np_norm f.h _ = _
    rw [hfh, np_norm_sub hys0 (by omega) (by omega)]
    omega
  have hcw : (zoom_cropped zoom_type max_zoom W H tf fn f).w =
      (zoom_crop_dims zoom_type max_zoom W H tf fn).1.toNat := by
    show np_norm f.w _ - np_norm f.w _ = _
    rw [hfw, np_norm_sub hxs0 (by omega) (by omega)]
    omega
  refine ⟨resize (zoom_cropped zoom_type max_zoom W H tf fn f) W H, ?_,
    (hres _ W H).1, (hres _ W H).2⟩
  simp only [simulate_zoom_frame]
  rw [if_neg htf0, if_neg hzfpos.ne', if_neg (by rw [hch, hcw]; omega)]

/-- `simulate_dolly` always yields a frame of the stream's dimensions for
frame indices in `[0, total_frames)` (there the scale factor is at least 1
and the centre-crop branch runs). -/
theorem dolly_dims (resize : Frame → ℕ → ℕ → Frame)
    (hres : ∀ g a b, (resize g a b).h = b ∧ (resize g a b).w = a)
    (W H tf : ℕ) (direction : String) (speed : ℚ) (fn : ℕ) (f : Frame)
    (hW : 0 < W) (hH : 0 < H) (hfn : fn < tf) :
    ∃ g, simulate_dolly_frame resize W H tf direction speed fn f = some g ∧
      g.h = H ∧ g.w = W := by
  have htf0 : tf ≠ 0 := by omega
  have htfQ : (0 : ℚ) < (tf : ℚ) := by exact_mod_cast Nat.pos_of_ne_zero htf0
  have hp0 : 0 ≤ (fn : ℚ) / (tf : ℚ) := div_nonneg (Nat.cast_nonneg fn) htfQ.le
  have hp1 : (fn : ℚ) / (tf : ℚ) ≤ 1 := by
    rw [div_le_one htfQ]
    exact_mod_cast hfn.le
  obtain ⟨hsc1, hscm⟩ :=
    zoom_factor_bounds direction dolly_max_scale
      (by norm_num [dolly_max_scale]) hp0 hp1
  have hsc1' : (1 : ℚ) ≤
      (if direction = "in" then
        1 + (dolly_max_scale - 1) * ((fn : ℚ) / (tf : ℚ))
      else dolly_max_scale - (dolly_max_scale - 1) * ((fn : ℚ) / (tf : ℚ))) :=
    hsc1
  have hWQ : (1 : ℚ) ≤ (W : ℚ) := by exact_mod_cast hW
  have hHQ : (1 : ℚ) ≤ (H : ℚ) := by exact_mod_cast hH
  have hNW : (W : ℤ) ≤ int_trunc ((W : ℚ) *
      zoom_factor direction dolly_max_scale ((fn : ℚ) / (tf : ℚ))) := by
    refine le_int_trunc ?_ ?_
    · push_cast
      exact le_mul_of_one_le_right (by positivity) hsc1
    · positivity
  have hNH : (H : ℤ) ≤ int_trunc ((H : ℚ) *
      zoom_factor direction dolly_max_scale ((fn : ℚ) / (tf : ℚ))) := by
    refine le_int_trunc ?_ ?_
    · push_cast
      exact le_mul_of_one_le_right (by positivity) hsc1
    · positivity
  have hNW' : (W : ℤ) ≤ int_trunc ((W : ℚ) *
      (if direction = "in" then
        1 + (dolly_max_scale - 1) * ((fn : ℚ) / (tf : ℚ))
      else dolly_max_scale - (dolly_max_scale - 1) * ((fn : ℚ) / (tf : ℚ)))) :=
    hNW
  have hNH' : (H : ℤ) ≤ int_trunc ((H : ℚ) *
      (if direction = "in" then
        1 + (dolly_max_scale - 1) * ((fn : ℚ) / (tf : ℚ))
      else dolly_max_scale - (dolly_max_scale - 1) * ((fn : ℚ) / (tf : ℚ)))) :=
    hNH
  set NW := int_trunc ((W : ℚ) *
      (if direction = "in" then
        1 + (dolly_max_scale - 1) * ((fn : ℚ) / (tf : ℚ))
      else dolly_max_scale - (dolly_max_scale - 1) * ((fn : ℚ) / (tf : ℚ))))
    with hNWdef
  set NH := int_trunc ((H : ℚ) *
      (if direction = "in" then
        1 + (dolly_max_scale - 1) * ((fn : ℚ) / (tf : ℚ))
      else dolly_max_scale - (dolly_max_scale - 1) * ((fn : ℚ) / (tf : ℚ))))
    with hNHdef
  have hys0 : 0 ≤ (NH - (H : ℤ)).fdiv 2 := Int.fdiv_nonneg (by omega) (by omega)
  have hysle : (NH - (H : ℤ)).fdiv 2 ≤ NH - (H : ℤ) := by
    rw [Int.fdiv_eq_ediv _ (by omega)]
    exact Int.ediv_le_self 2 (by omega)
  have hxs0 : 0 ≤ (NW - (W : ℤ)).fdiv 2 := Int.fdiv_nonneg (by omega) (by omega)
  have hxsle : (NW - (W : ℤ)).fdiv 2 ≤ NW - (W : ℤ) := by
    rw [Int.fdiv_eq_ediv _ (by omega)]
    exact Int.ediv_le_self 2 (by omega)
  have hsch : (resize f NW.toNat NH.toNat).h = NH.toNat := (hres f _ _).1
  have hscw : (resize f NW.toNat NH.toNat).w = NW.toNat := (hres f _ _).2
  refine ⟨np_get_slice2d (resize f NW.toNat NH.toNat)
      ((NH - (H : ℤ)).fdiv 2) ((NH - (H : ℤ)).fdiv 2 + H)
      ((NW - (W : ℤ)).fdiv 2) ((NW - (W : ℤ)).fdiv 2 + W), ?_, ?_, ?_⟩
  · simp only [simulate_dolly_frame]
    rw [if_neg htf0, if_neg (by omega), if_pos hsc1']
  · show np_norm (resize f NW.toNat NH.toNat).h _ -
        np_norm (resize f NW.toNat NH.toNat).h _ = H
    rw [hsch, np_norm_sub hys0 (by omega) (by omega)]
    omega
  · show np_norm (resize f NW.toNat NH.toNat).w _ -
        np_norm (resize f NW.toNat NH.toNat).w _ = W
    rw [hscw, np_norm_sub hxs0 (by omega) (by omega)]
    omega

/-- C1: for every motion kind, every direction string, and every frame
index in `[0, total_frames)`, the corresponding `simulate_*` per-frame
transform succeeds and its output frame has exactly the source stream's
width and height (given positive stream metadata, a well-formed intensity
`1 ≤ intensity ≤ min W H`, and a source frame of the stream's dimensions;
`resize` is any resampler with `cv2.resize`'s output-size contract). -/
theorem C1_dimension_invariance (resize : Frame → ℕ → ℕ → Frame)
    (hres : ∀ g a b, (resize g a b).h = b ∧ (resize g a b).w = a)
    (kind : MotionKind) (direction : String) (intensity : ℚ) (W H : ℕ)
    (fps : ℚ) (tf fn : ℕ) (f : Frame)
    (hW : 0 < W) (hH : 0 < H) (hfps : 0 < fps) (hfn : fn < tf)
    (hint1 : 1 ≤ intensity) (hintW : intensity ≤ (W : ℚ))
    (hintH : intensity ≤ (H : ℚ)) (hfh : f.h = H) (hfw : f.w = W) :
    ∃ g, apply_motion resize kind direction intensity W H fps tf fn f =
      some g ∧ g.h = H ∧ g.w = W := by
  cases kind with
  | pan => exact pan_dims W H fps tf direction intensity fn f hW hfps.ne'
  | tilt => exact tilt_dims W H fps tf direction intensity fn f hH hfps.ne'
  | zoom =>
    exact zoom_dims resize hres W H tf direction intensity fn f hW hH hint1
      hintW hintH hfn hfh hfw
  | dolly => exact dolly_dims resize hres W H tf direction intensity fn f hW hH hfn
  | tracking => exact pan_dims W H fps tf direction intensity fn f hW hfps.ne'
  | static => exact ⟨f, rfl, hfh, hfw⟩

/-- C1 witness: all six kinds instantiated on a 4×4 stream, `fps = 1`,
intensity `3/2`, frame index 1 of 2. -/
theorem C1_dimension_invariance_witness :
    0 < 4 ∧ (0 : ℚ) < 1 ∧ 1 < 2 ∧ (1 : ℚ) ≤ 3 / 2 ∧
    ((3 : ℚ) / 2) ≤ ((4 : ℕ) : ℚ) ∧ test_frame.h = 4 ∧ test_frame.w = 4 ∧
    (∃ g, apply_motion resize_nn .pan "right" (3 / 2) 4 4 1 2 1 test_frame =
      some g ∧ g.h = 4 ∧ g.w = 4) ∧
    (∃ g, apply_motion resize_nn .tilt "up" (3 / 2) 4 4 1 2 1 test_frame =
      some g ∧ g.h = 4 ∧ g.w = 4) ∧
    (∃ g, apply_motion resize_nn .zoom "in" (3 / 2) 4 4 1 2 1 test_frame =
      some g ∧ g.h = 4 ∧ g.w = 4) ∧
    (∃ g, apply_motion resize_nn .dolly "out" (3 / 2) 4 4 1 2 1 test_frame =
      some g ∧ g.h = 4 ∧ g.w = 4) ∧
    (∃ g, apply_motion resize_nn .tracking "left" (3 / 2) 4 4 1 2 1 test_frame =
      some g ∧ g.h = 4 ∧ g.w = 4) ∧
    (∃ g, apply_motion resize_nn .static "" (3 / 2) 4 4 1 2 1 test_frame =
      some g ∧ g.h = 4 ∧ g.w = 4) :=
  ⟨by norm_num, by norm_num, by norm_num, by norm_num, by norm_num, rfl, rfl,
   C1_dimension_invariance resize_nn (fun _ _ _ => ⟨rfl, rfl⟩) .pan "right"
     (3 / 2) 4 4 1 2 1 test_frame (by norm_num) (by norm_num) (by norm_num)
     (by norm_num) (by norm_num) (by norm_num) (by norm_num) rfl rfl,
   C1_dimension_invariance resize_nn (fun _ _ _ => ⟨rfl, rfl⟩) .tilt "up"
     (3 / 2) 4 4 1 2 1 test_frame (by norm_num) (by norm_num) (by norm_num)
     (by norm_num) (by norm_num) (by norm_num) (by norm_num) rfl rfl,
   C1_dimension_invariance resize_nn (fun _ _ _ => ⟨rfl, rfl⟩) .zoom "in"
     (3 / 2) 4 4 1 2 1 test_frame (by norm_num) (by norm_num) (by norm_num)
     (by norm_num) (by norm_num) (by norm_num) (by norm_num) rfl rfl,
   C1_dimension_invariance resize_nn (fun _ _ _ => ⟨rfl, rfl⟩) .dolly "out"
     (3 / 2) 4 4 1 2 1 test_frame (by norm_num) (by norm_num) (by norm_num)
     (by norm_num) (by norm_num) (by norm_num) (by norm_num) rfl rfl,
   C1_dimension_invariance resize_nn (fun _ _ _ => ⟨rfl, rfl⟩) .tracking "left"
     (3 / 2) 4 4 1 2 1 test_frame (by norm_num) (by norm_num) (by norm_num)
     (by norm_num) (by norm_num) (by norm_num) (by norm_num) rfl rfl,
   C1_dimension_invariance resize_nn (fun _ _ _ => ⟨rfl, rfl⟩) .static ""
     (3 / 2) 4 4 1 2 1 test_frame (by norm_num) (by norm_num) (by norm_num)
     (by norm_num) (by norm_num) (by norm_num) (by norm_num) rfl rfl⟩
